import Mathlib

/-!
Shallow embedding of the pocketclaude Relay/Agent control plane.

Agent side (pc-agent): `SessionManager` (session-manager.ts), the command
dispatcher and uplink event handlers (index.ts), `ReconnectManager`
(reconnect.ts).  Relay side (relay-server): `ConnectionManager`
(connection-manager.ts) and the per-connection message handler (index.ts).

JavaScript `Map`s are embedded as association lists with `Map.set` /
`Map.delete` / `Map.get` semantics; timers (the 100 ms input double-tap, the
idle-check interval, the heartbeat interval) are embedded as explicit
functions invoked with the state at firing time; `Date.now()` is an explicit
`now : Nat` argument.
-/

namespace PC

/-- `Map.get`-style lookup in an association list (first matching key). -/
def lookupAssoc {α : Type} [DecidableEq α] {β : Type} (l : List (α × β)) (k : α) : Option β :=
  match l with
  | [] => none
  | p :: t => if p.1 = k then some p.2 else lookupAssoc t k

/-- `Map.set`: replace the value at an existing key, else append a new entry. -/
def setAssoc {α : Type} [DecidableEq α] {β : Type} (l : List (α × β)) (k : α) (v : β) :
    List (α × β) :=
  match l with
  | [] => [(k, v)]
  | p :: t => if p.1 = k then (k, v) :: t else p :: setAssoc t k v

/-- `Map.delete`: remove the entry with the given key. -/
def eraseAssoc {α : Type} [DecidableEq α] {β : Type} (l : List (α × β)) (k : α) :
    List (α × β) :=
  l.filter (fun p => ¬ p.1 = k)

/-- In-place mutation of the record stored at a key (first occurrence). -/
def updateAssoc {α : Type} [DecidableEq α] {β : Type} (l : List (α × β)) (k : α) (f : β → β) :
    List (α × β) :=
  match l with
  | [] => []
  | p :: t => if p.1 = k then (p.1, f p.2) :: t else p :: updateAssoc t k f

end PC

namespace Agent

/-- From pc-agent/src/types.ts: quick-session sentinel project id. -/
def QUICK_SESSION_PROJECT_ID : String := "__quick__"

/-- session-manager.ts constants. -/
def BUFFER_MAX_LINES : Nat := 100

def IDLE_TIMEOUT : Nat := 30 * 60 * 1000

def IDLE_CHECK_INTERVAL : Nat := 5 * 60 * 1000

/-- From pc-agent/src/types.ts: SessionStatus = 'active' | 'idle'. -/
inductive SessionStatus where
  | active
  | idle
deriving DecidableEq, Repr

/-- From pc-agent/src/types.ts: ProjectConfig. -/
structure ProjectConfig where
  id : String
  name : String
  path : String
deriving DecidableEq, Repr

/-- From pc-agent/src/types.ts: Session (the IPty handle is embedded as a
numeric id). -/
structure Session where
  ptyId : Nat
  projectId : String
  workingDir : String
  status : SessionStatus
  buffer : List String
  lastActivity : Nat
deriving DecidableEq, Repr

/-- From pc-agent/src/types.ts: SessionInfo, the shape returned by
`listSessions`. -/
structure SessionInfo where
  sessionId : String
  projectId : String
  status : SessionStatus
  lastActivity : Nat
deriving DecidableEq, Repr

/-- The `sessions: Map<string, Session>` field of SessionManager. -/
structure SMState where
  sessions : List (String × Session)
deriving DecidableEq, Repr

/-- Observable side effects of SessionManager methods: PTY spawns/writes/kills
and the two callbacks wired up in index.ts (`onOutput` → output message,
`onSessionClosed` → `status{session_closed}`). -/
inductive AgentEff where
  | ptySpawn (ptyId : Nat) (cwd : String)
  | ptyWrite (ptyId : Nat) (data : String)
  | ptyKill (ptyId : Nat)
  | sessionClosed (sessionId : String)
  | outputEv (sessionId : String) (data : String)
deriving DecidableEq, Repr

/-- SessionManager.getSession / `this.sessions.get(sessionId)`. -/
def lookupSess (st : SMState) (id : String) : Option Session :=
  PC.lookupAssoc st.sessions id

/-- SessionManager.startSession: spawn a PTY in the project path, insert a
fresh active session under a newly generated id, and return the id.  The
uuid, the PTY handle and `Date.now()` are explicit arguments. -/
def startSession (project : ProjectConfig) (newId : String) (ptyId : Nat) (now : Nat)
    (st : SMState) : String × SMState × List AgentEff :=
  let session : Session :=
    { ptyId := ptyId, projectId := project.id, workingDir := project.path,
      status := .active, buffer := [], lastActivity := now }
  (newId, ⟨PC.setAssoc st.sessions newId session⟩, [.ptySpawn ptyId project.path])

/-- The 500 ms timer scheduled by startSession: write the assistant launch
command iff the session still exists when the timer fires (the PTY handle was
captured at schedule time). -/
def startSessionLaunchTap (st : SMState) (id : String) (capturedPtyId : Nat)
    (claudeCmd : String) : List AgentEff :=
  if (lookupSess st id).isSome then [.ptyWrite capturedPtyId (claudeCmd ++ "\r")] else []

/-- SessionManager.sendInput: on a miss return false with no change; on a hit
set `lastActivity`/`status` and write `input + "\r"` to the PTY. -/
def sendInput (id input : String) (now : Nat) (st : SMState) :
    Bool × SMState × List AgentEff :=
  match lookupSess st id with
  | none => (false, st, [])
  | some s =>
    (true,
     ⟨PC.updateAssoc st.sessions id (fun u => { u with lastActivity := now, status := .active })⟩,
     [.ptyWrite s.ptyId (input ++ "\r")])

/-- The 100 ms timer scheduled by sendInput: write the extra `"\r"` iff
`this.sessions.has(sessionId)` holds when the timer fires; the PTY handle was
captured at schedule time. -/
def sendInputDoubleTap (st : SMState) (id : String) (capturedPtyId : Nat) : List AgentEff :=
  if (lookupSess st id).isSome then [.ptyWrite capturedPtyId "\r"] else []

/-- SessionManager.closeSession: kill the PTY, delete the entry, fire the
session-closed callback. -/
def closeSession (id : String) (st : SMState) : Bool × SMState × List AgentEff :=
  match lookupSess st id with
  | none => (false, st, [])
  | some s =>
    (true, ⟨PC.eraseAssoc st.sessions id⟩, [.ptyKill s.ptyId, .sessionClosed id])

/-- SessionManager.checkIdleSessions: iterate the table and close every
session whose `lastActivity` is more than IDLE_TIMEOUT before `now`. -/
def checkIdleSessions (now : Nat) (st : SMState) : SMState × List AgentEff :=
  st.sessions.foldl
    (fun acc p =>
      if now - p.2.lastActivity > IDLE_TIMEOUT then
        ((closeSession p.1 acc.1).2.1, acc.2 ++ (closeSession p.1 acc.1).2.2)
      else acc)
    (st, [])

/-- SessionManager.listSessions. -/
def listSessions (st : SMState) : List SessionInfo :=
  st.sessions.map (fun p =>
    { sessionId := p.1, projectId := p.2.projectId, status := p.2.status,
      lastActivity := p.2.lastActivity })

/-- SessionManager.closeAllSessions: closeSession on every key. -/
def closeAllSessions (st : SMState) : SMState × List AgentEff :=
  st.sessions.foldl
    (fun acc p =>
      ((closeSession p.1 acc.1).2.1, acc.2 ++ (closeSession p.1 acc.1).2.2))
    (st, [])

/-- SessionManager.destroy: clear the idle timer and close every session. -/
def destroy (st : SMState) : SMState × List AgentEff :=
  closeAllSessions st

/-- From pc-agent/src/types.ts: CommandPayload (the fields used by the
dispatcher; `command` is kept as a raw string so unknown commands reach the
default branch). -/
structure CommandPayload where
  command : String
  projectId : Option String
  input : Option String
  sessionId : Option String
deriving DecidableEq, Repr

/-- Messages the agent sends up to the relay, as produced by
`sendStatus` / `sendError` in index.ts (`data` payload shapes split by
status). -/
inductive Reply where
  | projectsList (projects : List ProjectConfig)
  | sessionsList (sessions : List SessionInfo)
  | sessionStarted (sessionId : String) (projectId : String)
  | sessionClosedStatus (sessionId : String)
  | errorReply (code : String) (sessionId : Option String)
deriving DecidableEq, Repr

/-- JavaScript falsiness of the optional string fields tested with
`!command.projectId` / `!command.sessionId` (undefined or empty string). -/
def falsyStr : Option String → Bool
  | none => true
  | some s => s = ""

/-- index.ts handleCommand: the full dispatch switch.  `sm` is the
`sessionManager` variable (null while disconnected); `newId`/`ptyId`/`now`
stand for the uuid, PTY handle and clock consumed by a successful
start_session. -/
def handleCommand (projects : List ProjectConfig) (sm : Option SMState)
    (cmd : CommandPayload) (newId : String) (ptyId : Nat) (now : Nat) :
    Option SMState × List Reply × List AgentEff :=
  if cmd.command = "list_projects" then
    (sm, [.projectsList projects], [])
  else if cmd.command = "list_sessions" then
    match sm with
    | none => (none, [.errorReply "NO_SESSION_MANAGER" none], [])
    | some st => (some st, [.sessionsList (listSessions st)], [])
  else if cmd.command = "start_session" then
    if falsyStr cmd.projectId then
      (sm, [.errorReply "MISSING_PROJECT_ID" none], [])
    else
      match cmd.projectId with
      | none => (sm, [.errorReply "MISSING_PROJECT_ID" none], [])
      | some pid =>
        match projects.find? (fun p => p.id = pid) with
        | none => (sm, [.errorReply "PROJECT_NOT_FOUND" none], [])
        | some project =>
          match sm with
          | none => (none, [.errorReply "NO_SESSION_MANAGER" none], [])
          | some st =>
            let r := startSession project newId ptyId now st
            (some r.2.1, [.sessionStarted r.1 pid], r.2.2)
  else if cmd.command = "send_input" then
    if falsyStr cmd.sessionId then
      (sm, [.errorReply "MISSING_SESSION_ID" none], [])
    else
      match cmd.sessionId with
      | none => (sm, [.errorReply "MISSING_SESSION_ID" none], [])
      | some sid =>
        match cmd.input with
        | none => (sm, [.errorReply "MISSING_INPUT" none], [])
        | some inp =>
          match sm with
          | none => (none, [.errorReply "NO_SESSION_MANAGER" none], [])
          | some st =>
            let r := sendInput sid inp now st
            if r.1 then (some r.2.1, [], r.2.2)
            else (some r.2.1, [.errorReply "SESSION_NOT_FOUND" (some sid)], r.2.2)
  else if cmd.command = "close_session" then
    if falsyStr cmd.sessionId then
      (sm, [.errorReply "MISSING_SESSION_ID" none], [])
    else
      match cmd.sessionId with
      | none => (sm, [.errorReply "MISSING_SESSION_ID" none], [])
      | some sid =>
        match sm with
        | none => (none, [.errorReply "NO_SESSION_MANAGER" none], [])
        | some st =>
          let r := closeSession sid st
          if r.1 then (some r.2.1, [], r.2.2)
          else (some r.2.1, [.errorReply "SESSION_NOT_FOUND" (some sid)], r.2.2)
  else
    (sm, [.errorReply "UNKNOWN_COMMAND" none], [])

/-- reconnect.ts `getNextDelay` without the random jitter term: the base
delay `min(initialDelay * multiplier ^ attempt, maxDelay)` together with the
post-increment of `attempt`. -/
def getNextDelayBase (attempt : Nat) : Nat × Nat :=
  (min (1000 * 2 ^ attempt) 30000, attempt + 1)

/-- The agent-process state touched by the uplink event handlers of
index.ts: the ReconnectManager's attempt counter and pending timer, the
nullable `sessionManager`, and whether the WebSocket is up. -/
structure AgentUplink where
  attempt : Nat
  reconnectTimerSet : Bool
  sessionManager : Option SMState
  wsUp : Bool
deriving DecidableEq, Repr

/-- index.ts `ws.on('open')`: reset the ReconnectManager (attempt := 0,
pending timer cleared), send the auth frame, and create a fresh
SessionManager. -/
def onOpen (st : AgentUplink) : AgentUplink × Bool :=
  ({ st with attempt := 0, reconnectTimerSet := false,
             sessionManager := some ⟨[]⟩, wsUp := true },
   true)

/-- index.ts `ws.on('close')`: null the socket, destroy the SessionManager
when present (closing every session), and schedule a reconnect
(`getNextDelay` advances the attempt counter and a timer is set). -/
def onClose (st : AgentUplink) : AgentUplink × List AgentEff :=
  let effs := match st.sessionManager with
    | some m => (destroy m).2
    | none => []
  ({ st with wsUp := false, sessionManager := none,
             attempt := st.attempt + 1, reconnectTimerSet := true },
   effs)

/-- index.ts `ws.on('message')` for a status frame: it is only logged; no
agent state changes. -/
def onStatusFrame (st : AgentUplink) : AgentUplink :=
  st

end Agent

namespace Relay

/-- WebSocket handles are embedded as numeric ids. -/
abbrev Sock := Nat

/-- relay-server/src/types.ts ConnectionRole. -/
inductive Role where
  | agent
  | client
deriving DecidableEq, Repr

/-- connection-manager.ts `Connection` record. -/
structure Conn where
  ws : Sock
  role : Role
  authenticated : Bool
  lastPong : Nat
deriving DecidableEq, Repr

/-- connection-manager.ts ConnectionManager state: the nullable agent slot
and the `clients: Map<WebSocket, Connection>`. -/
structure CMState where
  agent : Option Conn
  clients : List (Sock × Conn)
deriving DecidableEq, Repr

/-- Inbound frames after JSON parsing, as discriminated by the relay's
message handler; `invalid` is an unparsable frame, an `auth` frame carries
the token and a role field (`none` = any string other than agent/client),
and the forwarded kinds keep their payload opaque. -/
inductive InMsg where
  | invalid
  | auth (token : String) (role : Option Role)
  | command (tag : String)
  | output (tag : String)
  | statusFrame (tag : String)
  | errorFrame (tag : String)
deriving DecidableEq, Repr

/-- Outbound message bodies the relay constructs: error envelopes, the
`status{disconnected|connected, data.reason}` broadcasts, the auth success
reply, and verbatim forwarding of an inbound frame. -/
inductive Msg where
  | err (code : String)
  | statusReason (status : String) (reason : String)
  | statusAuth (role : Role) (agentConnected : Bool)
  | fwd (m : InMsg)
deriving DecidableEq, Repr

/-- Observable I/O of the relay: a successful `ws.send`, a `ws.send` that
threw (caught and logged), socket closes with a close code, `terminate`,
and pings. -/
inductive Action where
  | send (dst : Sock) (m : Msg)
  | sendFail (dst : Sock) (m : Msg)
  | closeSock (s : Sock) (code : Nat)
  | terminate (s : Sock)
  | ping (s : Sock)
deriving DecidableEq, Repr

/-- ConnectionManager.hasAgent: an agent record is present and its socket's
readyState is OPEN.  Socket readiness is the external `opn` oracle. -/
def hasAgent (opn : Sock → Bool) (st : CMState) : Bool :=
  match st.agent with
  | some c => opn c.ws
  | none => false

/-- ConnectionManager.registerAgent. -/
def registerAgent (opn : Sock → Bool) (st : CMState) (s : Sock) (now : Nat) :
    Bool × CMState :=
  if hasAgent opn st then (false, st)
  else (true, { st with agent := some { ws := s, role := .agent, authenticated := true,
                                        lastPong := now } })

/-- ConnectionManager.registerClient. -/
def registerClient (st : CMState) (s : Sock) (now : Nat) : CMState :=
  let c : Conn := { ws := s, role := .client, authenticated := true, lastPong := now }
  { st with clients := PC.setAssoc st.clients s c }

/-- ConnectionManager.broadcastToClients: attempt a send to every client
whose socket is OPEN; a throwing send is logged (`sendFail`) and the loop
continues; the client map is not modified.  `sendOk` is the external oracle
for whether `ws.send` succeeds. -/
def broadcastToClients (opn sendOk : Sock → Bool) (st : CMState) (m : Msg) : List Action :=
  st.clients.filterMap (fun p =>
    if opn p.1 then some (if sendOk p.1 then .send p.1 m else .sendFail p.1 m) else none)

/-- ConnectionManager.sendToAgent. -/
def sendToAgent (opn sendOk : Sock → Bool) (st : CMState) (m : Msg) : List Action :=
  if hasAgent opn st then
    match st.agent with
    | some c => if sendOk c.ws then [.send c.ws m] else [.sendFail c.ws m]
    | none => []
  else []

/-- ConnectionManager.removeConnection: if the closing socket is the agent's,
clear the slot and broadcast `status{disconnected, reason agent_disconnected}`
to the clients; else if it is a client, delete it; else do nothing. -/
def removeConnection (opn sendOk : Sock → Bool) (st : CMState) (s : Sock) :
    CMState × List Action :=
  match st.agent with
  | some c =>
    if c.ws = s then
      let st1 : CMState := { st with agent := none }
      (st1, broadcastToClients opn sendOk st1 (.statusReason "disconnected" "agent_disconnected"))
    else if (PC.lookupAssoc st.clients s).isSome then
      ({ st with clients := PC.eraseAssoc st.clients s }, [])
    else (st, [])
  | none =>
    if (PC.lookupAssoc st.clients s).isSome then
      ({ st with clients := PC.eraseAssoc st.clients s }, [])
    else (st, [])

/-- ConnectionManager.pingAll: terminate any peer whose lastPong is more than
60 s old (clearing its record directly, without the removeConnection path),
and ping every remaining peer whose socket is OPEN. -/
def pingAll (opn : Sock → Bool) (now : Nat) (st : CMState) : CMState × List Action :=
  let timeout := 60000
  let agentStep : Option Conn × List Action :=
    match st.agent with
    | none => (none, [])
    | some c =>
      if now - c.lastPong > timeout then (none, [.terminate c.ws])
      else if opn c.ws then (some c, [.ping c.ws])
      else (some c, [])
  let clientStep :=
    st.clients.foldl
      (fun (acc : List (Sock × Conn) × List Action) p =>
        if now - p.2.lastPong > timeout then (acc.1, acc.2 ++ [.terminate p.1])
        else if opn p.1 then (acc.1 ++ [p], acc.2 ++ [.ping p.1])
        else (acc.1 ++ [p], acc.2))
      ([], [])
  ({ agent := agentStep.1, clients := clientStep.1 }, agentStep.2 ++ clientStep.2)

/-- The per-connection local variables of the relay's `wss.on('connection')`
closure: `authenticated` and `role`. -/
structure SockLocal where
  authenticated : Bool
  role : Option Role
deriving DecidableEq, Repr

/-- The post-auth routing rules of relay-server index.ts: a command from a
client is forwarded to the agent (NO_AGENT error when none is bound), an
output/status/error frame from the agent is broadcast to every client, and
every other role/type combination is silently discarded.  Routing never
mutates the connection state. -/
def routeAuthed (opn sendOk : Sock → Bool) (s : Sock) (role : Option Role)
    (st : CMState) (m : InMsg) : List Action :=
  match role, m with
  | some .client, .command tag =>
    if ¬ hasAgent opn st then [.send s (.err "NO_AGENT")]
    else sendToAgent opn sendOk st (.fwd (.command tag))
  | some .agent, .output tag => broadcastToClients opn sendOk st (.fwd (.output tag))
  | some .agent, .statusFrame tag => broadcastToClients opn sendOk st (.fwd (.statusFrame tag))
  | some .agent, .errorFrame tag => broadcastToClients opn sendOk st (.fwd (.errorFrame tag))
  | _, _ => []

/-- relay-server index.ts `ws.on('message')`: authentication handling (which
runs regardless of the sender's prior state), the unauthenticated-frame
rejection, and the role-based routing rules. -/
def handleMessage (tok : String) (opn sendOk : Sock → Bool) (s : Sock)
    (ls : SockLocal) (st : CMState) (m : InMsg) (now : Nat) :
    SockLocal × CMState × List Action :=
  match m with
  | .invalid => (ls, st, [.send s (.err "INVALID_JSON")])
  | .auth t r =>
    if ¬ t = tok then (ls, st, [.send s (.err "AUTH_FAILED"), .closeSock s 4001])
    else
      match r with
      | some .agent =>
        let reg := registerAgent opn st s now
        if ¬ reg.1 then (ls, st, [.send s (.err "AGENT_EXISTS"), .closeSock s 4002])
        else
          let st1 := reg.2
          let bacts := broadcastToClients opn sendOk st1 (.statusReason "connected" "agent_connected")
          ({ authenticated := true, role := some .agent }, st1,
           bacts ++ [.send s (.statusAuth .agent (hasAgent opn st1))])
      | some .client =>
        let st1 := registerClient st s now
        ({ authenticated := true, role := some .client }, st1,
         [.send s (.statusAuth .client (hasAgent opn st1))])
      | none => (ls, st, [.send s (.err "INVALID_ROLE"), .closeSock s 4003])
  | m =>
    if ¬ ls.authenticated then
      (ls, st, [.send s (.err "NOT_AUTHENTICATED"), .closeSock s 4001])
    else
      (ls, st, routeAuthed opn sendOk s ls.role st m)

/-- Every client record carries role client (true of every state the
ConnectionManager can build, since registerClient is the only writer of the
client map). -/
def clientsAllClientRole (st : CMState) : Bool :=
  st.clients.all (fun p => p.2.role == Role.client)

/-- Number of connection records with role agent marked authenticated. -/
def authedAgentRoleCount (st : CMState) : Nat :=
  (match st.agent with
   | some c => if c.authenticated then 1 else 0
   | none => 0)
  + (st.clients.filter (fun p => p.2.role == Role.agent && p.2.authenticated)).length

end Relay

section AssocLemmas

namespace PC

variable {α : Type} [DecidableEq α] {β : Type}

theorem lookupAssoc_eq_none_iff (l : List (α × β)) (k : α) :
    lookupAssoc l k = none ↔ ∀ p ∈ l, ¬ p.1 = k := by
  induction l with
  | nil => simp [lookupAssoc]
  | cons p t ih =>
    by_cases h : p.1 = k
    · simp [lookupAssoc, h]
    · simp [lookupAssoc, h, ih]

theorem setAssoc_of_lookup_none (l : List (α × β)) (k : α) (v : β)
    (h : lookupAssoc l k = none) : setAssoc l k v = l ++ [(k, v)] := by
  induction l with
  | nil => simp [setAssoc]
  | cons p t ih =>
    rw [lookupAssoc] at h
    by_cases hk : p.1 = k
    · simp [hk] at h
    · simp only [setAssoc, if_neg hk, List.cons_append]
      rw [ih (by simpa [hk] using h)]

theorem lookup_updateAssoc_self (l : List (α × β)) (k : α) (f : β → β) :
    lookupAssoc (updateAssoc l k f) k = (lookupAssoc l k).map f := by
  induction l with
  | nil => simp [lookupAssoc, updateAssoc]
  | cons p t ih =>
    by_cases h : p.1 = k
    · simp [lookupAssoc, updateAssoc, h]
    · simp [lookupAssoc, updateAssoc, h, ih]

theorem lookup_updateAssoc_ne (l : List (α × β)) (k k' : α) (f : β → β)
    (h : ¬ k' = k) : lookupAssoc (updateAssoc l k f) k' = lookupAssoc l k' := by
  induction l with
  | nil => simp [lookupAssoc, updateAssoc]
  | cons p t ih =>
    by_cases hp : p.1 = k
    · subst hp
      simp [lookupAssoc, updateAssoc, Ne.symm (by simpa using h)]
    · by_cases hp' : p.1 = k'
      · simp [lookupAssoc, updateAssoc, hp, hp', h]
      · simp [lookupAssoc, updateAssoc, hp, hp', ih]

theorem lookup_eraseAssoc_self (l : List (α × β)) (k : α) :
    lookupAssoc (eraseAssoc l k) k = none := by
  rw [lookupAssoc_eq_none_iff]
  intro p hp
  simp only [eraseAssoc, List.mem_filter, decide_eq_true_eq] at hp
  exact hp.2

theorem lookup_eraseAssoc_ne (l : List (α × β)) (k k' : α) (h : ¬ k' = k) :
    lookupAssoc (eraseAssoc l k) k' = lookupAssoc l k' := by
  induction l with
  | nil => simp [lookupAssoc, eraseAssoc]
  | cons p t ih =>
    by_cases hp : p.1 = k
    · subst hp
      simp only [eraseAssoc, List.filter_cons]
      have : ¬ p.1 = k' := fun hc => h (hc ▸ rfl)
      simp_all [lookupAssoc, eraseAssoc]
    · by_cases hp' : p.1 = k'
      · simp [lookupAssoc, eraseAssoc, List.filter_cons, hp, hp', h]
      · simp_all [lookupAssoc, eraseAssoc, List.filter_cons]

theorem eraseAssoc_eq_self_of_lookup_none (l : List (α × β)) (k : α)
    (h : lookupAssoc l k = none) : eraseAssoc l k = l := by
  rw [lookupAssoc_eq_none_iff] at h
  exact List.filter_eq_self.2 (fun p hp => by simpa using h p hp)

theorem lookup_of_nodup_mem (l : List (α × β)) (k : α) (v : β)
    (hnd : (l.map Prod.fst).Nodup) (hm : (k, v) ∈ l) : lookupAssoc l k = some v := by
  induction l with
  | nil => simp at hm
  | cons p t ih =>
    simp only [List.map_cons, List.nodup_cons] at hnd
    rcases List.mem_cons.1 hm with h | h
    · subst h
      simp [lookupAssoc]
    · have hk : ¬ p.1 = k := by
        intro hc
        exact hnd.1 (hc ▸ (List.mem_map.2 ⟨(k, v), h, rfl⟩))
      simp only [lookupAssoc, if_neg hk]
      exact ih hnd.2 h

theorem lookup_isSome_of_mem_keys (l : List (α × β)) (k : α)
    (h : k ∈ l.map Prod.fst) : (lookupAssoc l k).isSome := by
  induction l with
  | nil => simp at h
  | cons p t ih =>
    by_cases hp : p.1 = k
    · simp [lookupAssoc, hp]
    · rw [List.map_cons, List.mem_cons] at h
      rcases h with h | h
      · exact absurd h.symm hp
      · simpa [lookupAssoc, hp] using ih h

theorem eq_of_mem_of_nodup_keys (l : List (α × β)) (p q : α × β)
    (hnd : (l.map Prod.fst).Nodup) (hp : p ∈ l) (hq : q ∈ l) (h : p.1 = q.1) :
    p = q := by
  have h1 := lookup_of_nodup_mem l p.1 p.2 hnd (by simpa using hp)
  have h2 := lookup_of_nodup_mem l q.1 q.2 hnd (by simpa using hq)
  rw [h] at h1
  rw [h1] at h2
  have : p.2 = q.2 := by injection h2
  exact Prod.ext h this

end PC

end AssocLemmas

/-- Keys of a filtered association list stay duplicate-free. -/
theorem PC.nodup_keys_filter {α β : Type} (l : List (α × β)) (f : α × β → Bool)
    (hnd : (l.map Prod.fst).Nodup) : ((l.filter f).map Prod.fst).Nodup :=
  hnd.sublist ((l.filter_sublist).map Prod.fst)

section SessionManagerLemmas

namespace Agent

theorem closeSession_found (st : SMState) (id : String) (s : Session)
    (h : lookupSess st id = some s) :
    closeSession id st = (true, ⟨PC.eraseAssoc st.sessions id⟩,
      [.ptyKill s.ptyId, .sessionClosed id]) := by
  simp [closeSession, h]

theorem closeSession_notfound (st : SMState) (id : String)
    (h : lookupSess st id = none) : closeSession id st = (false, st, []) := by
  simp [closeSession, h]

/-- The idle check's fold, generalised over the iterated entry list and the
accumulator: it removes exactly the visited stale entries and emits the
close-path effects for each of them, in visit order. -/
theorem checkIdle_fold (now : Nat) (l : List (String × Session)) :
    ∀ (A : SMState) (effs : List AgentEff),
      ((A.sessions.map Prod.fst).Nodup) →
      ((l.map Prod.fst).Nodup) →
      (∀ p ∈ l, p ∈ A.sessions) →
      (l.foldl
        (fun acc p =>
          if now - p.2.lastActivity > IDLE_TIMEOUT then
            ((closeSession p.1 acc.1).2.1, acc.2 ++ (closeSession p.1 acc.1).2.2)
          else acc)
        (A, effs)) =
      (⟨A.sessions.filter
          (fun q => !(decide (IDLE_TIMEOUT < now - q.2.lastActivity) && decide (q ∈ l)))⟩,
       effs ++ (l.filter (fun p => decide (IDLE_TIMEOUT < now - p.2.lastActivity))).bind
          (fun p => [.ptyKill p.2.ptyId, .sessionClosed p.1])) := by
  induction l with
  | nil =>
    intro A effs _ _ _
    simp
  | cons p t ih =>
    intro A effs hA hl hsub
    simp only [List.map_cons, List.nodup_cons] at hl
    by_cases hstale : now - p.2.lastActivity > IDLE_TIMEOUT
    · have hpA : p ∈ A.sessions := hsub p (List.mem_cons_self p t)
      have hlook : lookupSess A p.1 = some p.2 :=
        PC.lookup_of_nodup_mem A.sessions p.1 p.2 hA (by simpa using hpA)
      have hclose := closeSession_found A p.1 p.2 hlook
      rw [List.foldl_cons, if_pos hstale, hclose]
      have hA' : (((⟨PC.eraseAssoc A.sessions p.1⟩ : SMState)).sessions.map Prod.fst).Nodup :=
        PC.nodup_keys_filter A.sessions _ hA
      have hsub' : ∀ q ∈ t, q ∈ (PC.eraseAssoc A.sessions p.1) := by
        intro q hq
        have hqA : q ∈ A.sessions := hsub q (List.mem_cons_of_mem p hq)
        have hkey : ¬ q.1 = p.1 := by
          intro hc
          exact hl.1 (hc ▸ (List.mem_map.2 ⟨q, hq, rfl⟩))
        simp [PC.eraseAssoc, List.mem_filter, hqA, hkey]
      dsimp only
      rw [ih ⟨PC.eraseAssoc A.sessions p.1⟩ (effs ++ [AgentEff.ptyKill p.2.ptyId, AgentEff.sessionClosed p.1])
            hA' hl.2 hsub']
      refine Prod.ext ?_ ?_
      · dsimp only
        congr 1
        rw [PC.eraseAssoc, List.filter_filter]
        apply List.filter_congr
        intro q hq
        by_cases hqp : q.1 = p.1
        · have : q = p := PC.eq_of_mem_of_nodup_keys A.sessions q p hA hq hpA hqp
          subst this
          simp [hstale]
        · have hqnep : ¬ q = p := fun hc => hqp (hc ▸ rfl)
          simp [hqp, hqnep]
      · dsimp only
        simp [hstale, List.append_assoc]
    · rw [List.foldl_cons, if_neg hstale]
      rw [ih A effs hA hl.2 (fun q hq => hsub q (List.mem_cons_of_mem p hq))]
      refine Prod.ext ?_ ?_
      · dsimp only
        congr 1
        apply List.filter_congr
        intro q hq
        by_cases hqp : q = p
        · subst hqp
          simp [hstale]
        · simp [hqp]
      · dsimp only
        simp [hstale]

/-- checkIdleSessions on a well-formed table removes exactly the sessions
whose `lastActivity` is more than IDLE_TIMEOUT before `now`, emitting the
normal close-path effects for each. -/
theorem checkIdleSessions_spec (now : Nat) (st : SMState)
    (hnd : (st.sessions.map Prod.fst).Nodup) :
    checkIdleSessions now st =
      (⟨st.sessions.filter (fun q => !decide (IDLE_TIMEOUT < now - q.2.lastActivity))⟩,
       (st.sessions.filter (fun p => decide (IDLE_TIMEOUT < now - p.2.lastActivity))).bind
          (fun p => [.ptyKill p.2.ptyId, .sessionClosed p.1])) := by
  rw [checkIdleSessions, checkIdle_fold now st.sessions st [] hnd hnd (fun _ h => h)]
  refine Prod.ext ?_ ?_
  · dsimp only
    congr 1
    apply List.filter_congr
    intro q hq
    simp [hq]
  · dsimp only
    simp

/-- The closeAllSessions fold, generalised like `checkIdle_fold`. -/
theorem closeAll_fold (l : List (String × Session)) :
    ∀ (A : SMState) (effs : List AgentEff),
      ((A.sessions.map Prod.fst).Nodup) →
      ((l.map Prod.fst).Nodup) →
      (∀ p ∈ l, p ∈ A.sessions) →
      (l.foldl
        (fun acc p =>
          ((closeSession p.1 acc.1).2.1, acc.2 ++ (closeSession p.1 acc.1).2.2))
        (A, effs)) =
      (⟨A.sessions.filter (fun q => !decide (q ∈ l))⟩,
       effs ++ l.bind (fun p => [.ptyKill p.2.ptyId, .sessionClosed p.1])) := by
  induction l with
  | nil =>
    intro A effs _ _ _
    simp
  | cons p t ih =>
    intro A effs hA hl hsub
    simp only [List.map_cons, List.nodup_cons] at hl
    have hpA : p ∈ A.sessions := hsub p (List.mem_cons_self p t)
    have hlook : lookupSess A p.1 = some p.2 :=
      PC.lookup_of_nodup_mem A.sessions p.1 p.2 hA (by simpa using hpA)
    rw [List.foldl_cons, closeSession_found A p.1 p.2 hlook]
    have hA' : (((⟨PC.eraseAssoc A.sessions p.1⟩ : SMState)).sessions.map Prod.fst).Nodup :=
      PC.nodup_keys_filter A.sessions _ hA
    have hsub' : ∀ q ∈ t, q ∈ (PC.eraseAssoc A.sessions p.1) := by
      intro q hq
      have hqA : q ∈ A.sessions := hsub q (List.mem_cons_of_mem p hq)
      have hkey : ¬ q.1 = p.1 := by
        intro hc
        exact hl.1 (hc ▸ (List.mem_map.2 ⟨q, hq, rfl⟩))
      simp [PC.eraseAssoc, List.mem_filter, hqA, hkey]
    dsimp only
    rw [ih ⟨PC.eraseAssoc A.sessions p.1⟩ (effs ++ [AgentEff.ptyKill p.2.ptyId, AgentEff.sessionClosed p.1])
          hA' hl.2 hsub']
    refine Prod.ext ?_ ?_
    · dsimp only
      congr 1
      rw [PC.eraseAssoc, List.filter_filter]
      apply List.filter_congr
      intro q hq
      by_cases hqp : q.1 = p.1
      · have : q = p := PC.eq_of_mem_of_nodup_keys A.sessions q p hA hq hpA hqp
        subst this
        simp
      · have hqnep : ¬ q = p := fun hc => hqp (hc ▸ rfl)
        simp [hqp, hqnep]
    · dsimp only
      simp [List.append_assoc]

/-- closeAllSessions (hence destroy) on a well-formed table empties it,
killing every PTY and emitting `session_closed` for every session. -/
theorem closeAllSessions_spec (st : SMState)
    (hnd : (st.sessions.map Prod.fst).Nodup) :
    closeAllSessions st =
      (⟨[]⟩, st.sessions.bind (fun p => [.ptyKill p.2.ptyId, .sessionClosed p.1])) := by
  rw [closeAllSessions, closeAll_fold st.sessions st [] hnd hnd (fun _ h => h)]
  refine Prod.ext ?_ ?_
  · dsimp only
    congr 1
    apply List.filter_eq_nil.2
    intro q hq
    simp [hq]
  · dsimp only
    simp

end Agent

end SessionManagerLemmas

section ClaimC2

/-- C2 counterexample: with one live session in the table, the uplink close
event leaves the Agent with no session manager at all — the session that was
in the table before the disconnect is gone and its PTY has been killed,
contradicting the claim that the session table survives the disconnect. -/
theorem c2_counterexample :
    (Agent.onClose ⟨0, false, some ⟨[("s1", ⟨7, "p1", "/w", .active, [], 0⟩)]⟩, true⟩).1.sessionManager
      = none ∧
    (Agent.onClose ⟨0, false, some ⟨[("s1", ⟨7, "p1", "/w", .active, [], 0⟩)]⟩, true⟩).2
      = [.ptyKill 7, .sessionClosed "s1"] := by
  decide

/-- C2 (amended): when the Agent's uplink closes, the close handler destroys
the session manager — every session in the table is closed via the normal
close path (PTY killed, session_closed emitted) and the table is discarded —
while a reconnect is scheduled (backoff attempt advanced, timer set). -/
theorem c2_close_tears_down_sessions (st : Agent.AgentUplink) (m : Agent.SMState)
    (hsm : st.sessionManager = some m)
    (hnd : (m.sessions.map Prod.fst).Nodup) :
    Agent.onClose st =
      (⟨st.attempt + 1, true, none, false⟩,
       m.sessions.bind (fun p => [.ptyKill p.2.ptyId, .sessionClosed p.1])) := by
  have hd := Agent.closeAllSessions_spec m hnd
  simp [Agent.onClose, hsm, Agent.destroy, hd]

/-- C2 witness: the amended theorem applied at a concrete one-session
state. -/
theorem c2_close_tears_down_sessions_witness :
    (Agent.AgentUplink.mk 4 false (some ⟨[("s1", ⟨7, "p1", "/w", .active, [], 0⟩)]⟩) true).sessionManager
      = some ⟨[("s1", ⟨7, "p1", "/w", .active, [], 0⟩)]⟩ ∧
    Agent.onClose ⟨4, false, some ⟨[("s1", ⟨7, "p1", "/w", .active, [], 0⟩)]⟩, true⟩ =
      (⟨5, true, none, false⟩, [.ptyKill 7, .sessionClosed "s1"]) :=
  ⟨rfl,
   c2_close_tears_down_sessions ⟨4, false, some ⟨[("s1", ⟨7, "p1", "/w", .active, [], 0⟩)]⟩, true⟩
     ⟨[("s1", ⟨7, "p1", "/w", .active, [], 0⟩)]⟩ rfl (by decide)⟩

end ClaimC2

section ClaimC3

/-- C3 counterexample: two start_session commands for the same configured
project leave two table entries that share the project id, and neither call
closed anything (the only effect of each is the PTY spawn) — contradicting
both the claimed close-before-spawn behavior and the claimed one-session-
per-project invariant. -/
theorem c3_counterexample :
    ((Agent.handleCommand [⟨"p1", "Proj", "/tmp/p"⟩]
        (Agent.handleCommand [⟨"p1", "Proj", "/tmp/p"⟩] (some ⟨[]⟩)
          ⟨"start_session", some "p1", none, none⟩ "a" 10 0).1
        ⟨"start_session", some "p1", none, none⟩ "b" 11 5).1.map
      (fun m => m.sessions.map (fun p => p.2.projectId))) = some ["p1", "p1"] ∧
    (Agent.handleCommand [⟨"p1", "Proj", "/tmp/p"⟩] (some ⟨[]⟩)
        ⟨"start_session", some "p1", none, none⟩ "a" 10 0).2.2
      = [.ptySpawn 10 "/tmp/p"] ∧
    (Agent.handleCommand [⟨"p1", "Proj", "/tmp/p"⟩]
        (Agent.handleCommand [⟨"p1", "Proj", "/tmp/p"⟩] (some ⟨[]⟩)
          ⟨"start_session", some "p1", none, none⟩ "a" 10 0).1
        ⟨"start_session", some "p1", none, none⟩ "b" 11 5).2.2
      = [.ptySpawn 11 "/tmp/p"] := by
  decide

/-- C3 (amended): startSession never closes an existing session: it appends
the new session under its fresh id, leaving every existing entry — including
any entry bound to the same project id — in place, and its only effect is
the PTY spawn; the session table can therefore hold several entries sharing
one project id. -/
theorem c3_start_session_appends (project : Agent.ProjectConfig) (newId : String)
    (ptyId now : Nat) (st : Agent.SMState)
    (h : Agent.lookupSess st newId = none) :
    Agent.startSession project newId ptyId now st =
      (newId,
       ⟨st.sessions ++ [(newId, ⟨ptyId, project.id, project.path, .active, [], now⟩)]⟩,
       [.ptySpawn ptyId project.path]) := by
  rw [Agent.startSession]
  rw [PC.setAssoc_of_lookup_none st.sessions newId _ h]

/-- C3 witness: the amended theorem applied to a table that already holds a
session for the same project. -/
theorem c3_start_session_appends_witness :
    Agent.lookupSess ⟨[("a", ⟨10, "p1", "/tmp/p", .active, [], 0⟩)]⟩ "b" = none ∧
    Agent.startSession ⟨"p1", "Proj", "/tmp/p"⟩ "b" 11 5
        ⟨[("a", ⟨10, "p1", "/tmp/p", .active, [], 0⟩)]⟩ =
      ("b",
       ⟨[("a", ⟨10, "p1", "/tmp/p", .active, [], 0⟩),
         ("b", ⟨11, "p1", "/tmp/p", .active, [], 5⟩)]⟩,
       [.ptySpawn 11 "/tmp/p"]) :=
  ⟨by decide,
   c3_start_session_appends ⟨"p1", "Proj", "/tmp/p"⟩ "b" 11 5
     ⟨[("a", ⟨10, "p1", "/tmp/p", .active, [], 0⟩)]⟩ (by decide)⟩

end ClaimC3

section ClaimC4

/-- C4 counterexample: start_session with projectId absent replies
error{MISSING_PROJECT_ID}, and start_session with projectId = `__quick__`
(not a configured project) replies error{PROJECT_NOT_FOUND}; no quick
session is synthesized in either case. -/
theorem c4_counterexample :
    Agent.handleCommand [] (some ⟨[]⟩) ⟨"start_session", none, none, none⟩ "a" 1 0
      = (some ⟨[]⟩, [.errorReply "MISSING_PROJECT_ID" none], []) ∧
    Agent.handleCommand [] (some ⟨[]⟩)
        ⟨"start_session", some Agent.QUICK_SESSION_PROJECT_ID, none, none⟩ "a" 1 0
      = (some ⟨[]⟩, [.errorReply "PROJECT_NOT_FOUND" none], []) := by
  decide

/-- C4 (amended): the dispatcher treats a missing projectId as an error
(MISSING_PROJECT_ID) and treats `__quick__` as an ordinary project id, so
unless a project with that id is configured the reply is PROJECT_NOT_FOUND;
the QUICK_SESSION_PROJECT_ID sentinel is never consulted and no quick
session is synthesized. -/
theorem c4_no_quick_session (projects : List Agent.ProjectConfig)
    (sm : Option Agent.SMState) (newId : String) (ptyId now : Nat)
    (hq : projects.find? (fun p => p.id = Agent.QUICK_SESSION_PROJECT_ID) = none) :
    Agent.handleCommand projects sm ⟨"start_session", none, none, none⟩ newId ptyId now
      = (sm, [.errorReply "MISSING_PROJECT_ID" none], []) ∧
    Agent.handleCommand projects sm
        ⟨"start_session", some Agent.QUICK_SESSION_PROJECT_ID, none, none⟩ newId ptyId now
      = (sm, [.errorReply "PROJECT_NOT_FOUND" none], []) := by
  constructor
  · rfl
  · have hq' : List.find? (fun p => decide (p.id = "__quick__")) projects = none := hq
    simp [Agent.handleCommand, Agent.falsyStr, Agent.QUICK_SESSION_PROJECT_ID, hq']

/-- C4 witness: the amended theorem applied with a nonempty project list
that does not contain `__quick__`. -/
theorem c4_no_quick_session_witness :
    ([Agent.ProjectConfig.mk "p1" "Proj" "/tmp/p"].find?
        (fun p => p.id = Agent.QUICK_SESSION_PROJECT_ID) = none) ∧
    Agent.handleCommand [⟨"p1", "Proj", "/tmp/p"⟩] (some ⟨[]⟩)
        ⟨"start_session", none, none, none⟩ "a" 1 0
      = (some ⟨[]⟩, [.errorReply "MISSING_PROJECT_ID" none], []) ∧
    Agent.handleCommand [⟨"p1", "Proj", "/tmp/p"⟩] (some ⟨[]⟩)
        ⟨"start_session", some Agent.QUICK_SESSION_PROJECT_ID, none, none⟩ "a" 1 0
      = (some ⟨[]⟩, [.errorReply "PROJECT_NOT_FOUND" none], []) :=
  ⟨by decide,
   c4_no_quick_session [⟨"p1", "Proj", "/tmp/p"⟩] (some ⟨[]⟩) "a" 1 0 (by decide)⟩

end ClaimC4

section ClaimC6

/-- C6 counterexample: at a state whose backoff attempt counter is 3, the
socket 'open' event alone — before any auth reply has been received — already
resets the counter to 0, contradicting the claim that the reset happens only
upon the successful-auth status reply. -/
theorem c6_counterexample :
    (Agent.onOpen ⟨3, true, none, false⟩).1.attempt = 0 := by
  decide

/-- C6 (amended): the Agent resets the reconnect backoff counter in the
socket 'open' handler, before authentication completes; the status reply
from the Relay is only logged and leaves the agent state (in particular the
counter) unchanged. -/
theorem c6_reset_on_open (st st2 : Agent.AgentUplink) :
    (Agent.onOpen st).1.attempt = 0 ∧ Agent.onStatusFrame st2 = st2 :=
  ⟨rfl, rfl⟩

end ClaimC6

section ClaimC7

/-- C7: send_input replies error{SESSION_NOT_FOUND} exactly when the
sessionId is not in the session table, and in that case the table is
untouched and nothing is written; for a known session the dispatcher writes
`input + "\r"` to that session's PTY, sets its lastActivity to now and its
status to active while leaving every other session unchanged, and the 100 ms
double-tap timer writes the second `"\r"` iff the session still exists when
it fires. -/
theorem c7_send_input (projects : List Agent.ProjectConfig) (st : Agent.SMState)
    (id inp newId : String) (ptyId now : Nat)
    (hid : ¬ id = "") :
    (Agent.lookupSess st id = none →
       Agent.sendInput id inp now st = (false, st, []) ∧
       Agent.handleCommand projects (some st) ⟨"send_input", none, some inp, some id⟩ newId ptyId now
         = (some st, [.errorReply "SESSION_NOT_FOUND" (some id)], [])) ∧
    (∀ s, Agent.lookupSess st id = some s →
       Agent.sendInput id inp now st
         = (true,
            ⟨PC.updateAssoc st.sessions id
               (fun u => { u with lastActivity := now, status := .active })⟩,
            [.ptyWrite s.ptyId (inp ++ "\r")]) ∧
       Agent.lookupSess (Agent.sendInput id inp now st).2.1 id
         = some { s with lastActivity := now, status := .active } ∧
       (∀ k, ¬ k = id →
          Agent.lookupSess (Agent.sendInput id inp now st).2.1 k = Agent.lookupSess st k) ∧
       Agent.handleCommand projects (some st) ⟨"send_input", none, some inp, some id⟩ newId ptyId now
         = (some (Agent.sendInput id inp now st).2.1, [], [.ptyWrite s.ptyId (inp ++ "\r")])) ∧
    (∀ st2 : Agent.SMState, ∀ pid : Nat,
       Agent.sendInputDoubleTap st2 id pid
         = if (Agent.lookupSess st2 id).isSome then [.ptyWrite pid "\r"] else []) := by
  refine ⟨?_, ?_, fun st2 pid => rfl⟩
  · intro hnone
    have h1 : Agent.sendInput id inp now st = (false, st, []) := by
      rw [Agent.sendInput, hnone]
    refine ⟨h1, ?_⟩
    simp [Agent.handleCommand, Agent.falsyStr, hid, h1]
  · intro s hsome
    have h1 : Agent.sendInput id inp now st
        = (true,
           ⟨PC.updateAssoc st.sessions id
              (fun u => { u with lastActivity := now, status := .active })⟩,
           [.ptyWrite s.ptyId (inp ++ "\r")]) := by
      rw [Agent.sendInput, hsome]
    refine ⟨h1, ?_, ?_, ?_⟩
    · rw [h1]
      show PC.lookupAssoc (PC.updateAssoc st.sessions id _) id = _
      rw [PC.lookup_updateAssoc_self]
      have : PC.lookupAssoc st.sessions id = some s := hsome
      rw [this]
      rfl
    · intro k hk
      rw [h1]
      show PC.lookupAssoc (PC.updateAssoc st.sessions id _) k = _
      rw [PC.lookup_updateAssoc_ne st.sessions id k _ hk]
      rfl
    · simp [Agent.handleCommand, Agent.falsyStr, hid, h1]

/-- C7 witness: the theorem applied at a concrete table holding exactly one
session. -/
theorem c7_send_input_witness :
    (¬ "s1" = "") ∧
    (Agent.lookupSess ⟨[("s1", ⟨7, "p1", "/w", .idle, [], 3⟩)]⟩ "s1"
       = some ⟨7, "p1", "/w", .idle, [], 3⟩) ∧
    Agent.sendInput "s1" "echo hi" 50 ⟨[("s1", ⟨7, "p1", "/w", .idle, [], 3⟩)]⟩
      = (true, ⟨[("s1", ⟨7, "p1", "/w", .active, [], 50⟩)]⟩,
         [.ptyWrite 7 "echo hi\r"]) :=
  ⟨by decide, by decide, by
    have h := (c7_send_input [] ⟨[("s1", ⟨7, "p1", "/w", .idle, [], 3⟩)]⟩
        "s1" "echo hi" "n" 1 50 (by decide)).2.1
        ⟨7, "p1", "/w", .idle, [], 3⟩ (by decide)
    rw [h.1]
    decide⟩

end ClaimC7

section ClaimC9

/-- C9: the idle reaper runs every 5 minutes (IDLE_CHECK_INTERVAL) and one
scan closes, via the normal close path (PTY kill + session_closed), exactly
the sessions whose lastActivity lies more than 30 minutes (IDLE_TIMEOUT)
before the scan time; consequently a session id appears in list_sessions
after the scan iff its entry was fresh enough, so any session idle for over
30 minutes is gone within one scan interval. -/
theorem c9_idle_reaper (now : Nat) (st : Agent.SMState)
    (hnd : (st.sessions.map Prod.fst).Nodup) :
    Agent.IDLE_CHECK_INTERVAL = 5 * 60 * 1000 ∧
    Agent.IDLE_TIMEOUT = 30 * 60 * 1000 ∧
    Agent.checkIdleSessions now st =
      (⟨st.sessions.filter (fun q => !decide (Agent.IDLE_TIMEOUT < now - q.2.lastActivity))⟩,
       (st.sessions.filter (fun p => decide (Agent.IDLE_TIMEOUT < now - p.2.lastActivity))).bind
         (fun p => [.ptyKill p.2.ptyId, .sessionClosed p.1])) ∧
    (∀ id : String,
      (∃ info ∈ Agent.listSessions (Agent.checkIdleSessions now st).1, info.sessionId = id) ↔
      (∃ s, (id, s) ∈ st.sessions ∧ now - s.lastActivity ≤ Agent.IDLE_TIMEOUT)) := by
  refine ⟨rfl, rfl, Agent.checkIdleSessions_spec now st hnd, ?_⟩
  intro id
  rw [Agent.checkIdleSessions_spec now st hnd]
  constructor
  · rintro ⟨info, hin, hid⟩
    rw [Agent.listSessions] at hin
    rw [List.mem_map] at hin
    obtain ⟨p, hp, hfp⟩ := hin
    rw [List.mem_filter] at hp
    refine ⟨p.2, ?_, ?_⟩
    · have : p.1 = id := by
        rw [← hid, ← hfp]
      rw [← this]
      exact hp.1
    · have := hp.2
      simp only [Bool.not_eq_true', decide_eq_false_iff_not, not_lt] at this
      exact this
  · rintro ⟨s, hmem, hle⟩
    refine ⟨⟨id, s.projectId, s.status, s.lastActivity⟩, ?_, rfl⟩
    rw [Agent.listSessions, List.mem_map]
    refine ⟨(id, s), ?_, rfl⟩
    rw [List.mem_filter]
    exact ⟨hmem, by simpa [Nat.not_lt] using hle⟩

/-- C9 witness: the theorem applied at a two-session table, one stale and
one fresh, at scan time 2,000,000 ms. -/
theorem c9_idle_reaper_witness :
    ((Agent.SMState.mk [("a", ⟨1, "p1", "/w", .active, [], 0⟩),
        ("b", ⟨2, "p2", "/w", .active, [], 500000⟩)]).sessions.map Prod.fst).Nodup ∧
    Agent.checkIdleSessions 2000000
        ⟨[("a", ⟨1, "p1", "/w", .active, [], 0⟩), ("b", ⟨2, "p2", "/w", .active, [], 500000⟩)]⟩
      = (⟨[("b", ⟨2, "p2", "/w", .active, [], 500000⟩)]⟩,
         [.ptyKill 1, .sessionClosed "a"]) :=
  ⟨by decide, by
    have h := (c9_idle_reaper 2000000
        ⟨[("a", ⟨1, "p1", "/w", .active, [], 0⟩),
          ("b", ⟨2, "p2", "/w", .active, [], 500000⟩)]⟩ (by decide)).2.2.1
    rw [h]
    decide⟩

end ClaimC9

section RelayLemmas

/-- `List.all` is preserved by a `Map.set` whose new entry satisfies the
predicate. -/
theorem PC.all_setAssoc {α β : Type} [DecidableEq α] (l : List (α × β)) (k : α) (v : β)
    (f : α × β → Bool) (hl : l.all f = true) (hv : f (k, v) = true) :
    (PC.setAssoc l k v).all f = true := by
  induction l with
  | nil => simp [PC.setAssoc, hv]
  | cons p t ih =>
    rw [List.all_cons, Bool.and_eq_true] at hl
    by_cases hk : p.1 = k
    · simp [PC.setAssoc, hk, hv, hl.2]
    · simp [PC.setAssoc, hk, hl.1, ih hl.2]

/-- When every client record has role client, no client record counts as an
authenticated agent. -/
theorem Relay.noAgentRoleClients (st : Relay.CMState)
    (h : Relay.clientsAllClientRole st = true) :
    st.clients.filter (fun p => p.2.role == Relay.Role.agent && p.2.authenticated) = [] := by
  apply List.filter_eq_nil.2
  intro p hp
  have hc := List.all_eq_true.1 h p hp
  simp only [beq_iff_eq] at hc
  simp [hc]

/-- When every client record has role client, at most the agent slot holds an
authenticated agent-role connection. -/
theorem Relay.count_le_one (st : Relay.CMState)
    (h : Relay.clientsAllClientRole st = true) :
    Relay.authedAgentRoleCount st ≤ 1 := by
  rw [Relay.authedAgentRoleCount, Relay.noAgentRoleClients st h]
  cases hag : st.agent with
  | none => simp
  | some c => by_cases hau : c.authenticated <;> simp [hau]

/-- registerClient preserves the all-clients-have-role-client invariant. -/
theorem Relay.registerClient_allclient (st : Relay.CMState) (s : Relay.Sock) (now : Nat)
    (hcl : Relay.clientsAllClientRole st = true) :
    Relay.clientsAllClientRole (Relay.registerClient st s now) = true := by
  show (PC.setAssoc st.clients s ⟨s, Relay.Role.client, true, now⟩).all
      (fun p => p.2.role == Relay.Role.client) = true
  exact PC.all_setAssoc st.clients s ⟨s, Relay.Role.client, true, now⟩ _ hcl rfl

/-- The relay message handler keeps every client record at role client: the
only writer of the client map on this path is registerClient. -/
theorem Relay.handleMessage_allclient (tok : String) (opn sendOk : Relay.Sock → Bool)
    (s : Relay.Sock) (ls : Relay.SockLocal) (st : Relay.CMState) (m : Relay.InMsg) (now : Nat)
    (hcl : Relay.clientsAllClientRole st = true) :
    Relay.clientsAllClientRole (Relay.handleMessage tok opn sendOk s ls st m now).2.1 = true := by
  cases m with
  | invalid => simpa [Relay.handleMessage] using hcl
  | auth t r =>
    by_cases ht : t = tok
    · rcases r with _ | ro
      · simpa [Relay.handleMessage, ht] using hcl
      · cases ro with
        | agent =>
          by_cases hA : Relay.hasAgent opn st = true
          · simpa [Relay.handleMessage, ht, Relay.registerAgent, hA] using hcl
          · simpa [Relay.handleMessage, ht, Relay.registerAgent, hA,
              Relay.clientsAllClientRole] using hcl
        | client =>
          have hr := Relay.registerClient_allclient st s now hcl
          simpa [Relay.handleMessage, ht] using hr
    · simpa [Relay.handleMessage, ht] using hcl
  | command tag =>
    by_cases hauth : ls.authenticated <;> simpa [Relay.handleMessage, hauth] using hcl
  | output tag =>
    by_cases hauth : ls.authenticated <;> simpa [Relay.handleMessage, hauth] using hcl
  | statusFrame tag =>
    by_cases hauth : ls.authenticated <;> simpa [Relay.handleMessage, hauth] using hcl
  | errorFrame tag =>
    by_cases hauth : ls.authenticated <;> simpa [Relay.handleMessage, hauth] using hcl

end RelayLemmas

section ClaimC1

/-- C1: the Relay never holds more than one authenticated agent-role
connection — the handler preserves the all-clients-have-role-client
invariant, under which the nullable agent slot is the only possible
agent-role record — and an auth{role agent} arriving while an agent is bound
with an open socket is answered with error{AGENT_EXISTS} and close 4002,
with the entire connection state (in particular the bound agent) left
unchanged. -/
theorem c1_single_agent (tok : String) (opn sendOk : Relay.Sock → Bool) (s : Relay.Sock)
    (ls : Relay.SockLocal) (st : Relay.CMState) (now : Nat)
    (hcl : Relay.clientsAllClientRole st = true) :
    (∀ m : Relay.InMsg,
       Relay.clientsAllClientRole (Relay.handleMessage tok opn sendOk s ls st m now).2.1 = true ∧
       Relay.authedAgentRoleCount (Relay.handleMessage tok opn sendOk s ls st m now).2.1 ≤ 1) ∧
    (Relay.hasAgent opn st = true →
       Relay.handleMessage tok opn sendOk s ls st (.auth tok (some .agent)) now
         = (ls, st, [.send s (.err "AGENT_EXISTS"), .closeSock s 4002])) := by
  constructor
  · intro m
    have h1 := Relay.handleMessage_allclient tok opn sendOk s ls st m now hcl
    exact ⟨h1, Relay.count_le_one _ h1⟩
  · intro hA
    simp [Relay.handleMessage, Relay.registerAgent, hA]

/-- C1 witness: the rejection branch applied with an open bound agent and a
second agent-auth attempt. -/
theorem c1_single_agent_witness :
    Relay.clientsAllClientRole ⟨some ⟨0, .agent, true, 0⟩, []⟩ = true ∧
    Relay.hasAgent (fun _ => true) ⟨some ⟨0, .agent, true, 0⟩, []⟩ = true ∧
    Relay.handleMessage "T" (fun _ => true) (fun _ => true) 5 ⟨false, none⟩
        ⟨some ⟨0, .agent, true, 0⟩, []⟩ (.auth "T" (some .agent)) 9
      = (⟨false, none⟩, ⟨some ⟨0, .agent, true, 0⟩, []⟩,
         [.send 5 (.err "AGENT_EXISTS"), .closeSock 5 4002]) :=
  ⟨by decide, by decide,
   (c1_single_agent "T" (fun _ => true) (fun _ => true) 5 ⟨false, none⟩
       ⟨some ⟨0, .agent, true, 0⟩, []⟩ 9 (by decide)).2 (by decide)⟩

end ClaimC1

section ClaimC5

/-- Entries of pingAll's client fold all come from the accumulator or the
iterated list: the fold only ever appends visited entries. -/
theorem relayPingFold_entries (opn : Relay.Sock → Bool) (now : Nat) :
    ∀ (l : List (Relay.Sock × Relay.Conn))
      (acc : List (Relay.Sock × Relay.Conn) × List Relay.Action),
      ∀ p ∈ (l.foldl
        (fun acc p =>
          if now - p.2.lastPong > 60000 then (acc.1, acc.2 ++ [Relay.Action.terminate p.1])
          else if opn p.1 then (acc.1 ++ [p], acc.2 ++ [Relay.Action.ping p.1])
          else (acc.1 ++ [p], acc.2)) acc).1,
        p ∈ acc.1 ∨ p ∈ l := by
  intro l
  induction l with
  | nil =>
    intro acc p hp
    exact Or.inl hp
  | cons q t ih =>
    intro acc p hp
    rw [List.foldl_cons] at hp
    by_cases h1 : now - q.2.lastPong > 60000
    · rw [if_pos h1] at hp
      rcases ih _ p hp with h | h
      · exact Or.inl h
      · exact Or.inr (List.mem_cons_of_mem q h)
    · rw [if_neg h1] at hp
      by_cases h2 : opn q.1 = true
      · rw [if_pos h2] at hp
        rcases ih _ p hp with h | h
        · rcases List.mem_append.1 h with h | h
          · exact Or.inl h
          · rw [List.mem_singleton] at h
            exact Or.inr (h ▸ List.mem_cons_self q t)
        · exact Or.inr (List.mem_cons_of_mem q h)
      · rw [if_neg h2] at hp
        rcases ih _ p hp with h | h
        · rcases List.mem_append.1 h with h | h
          · exact Or.inl h
          · rw [List.mem_singleton] at h
            exact Or.inr (h ▸ List.mem_cons_self q t)
        · exact Or.inr (List.mem_cons_of_mem q h)

/-- Actions of pingAll's client fold are the accumulated ones plus terminates
and pings only: the heartbeat sends no message envelopes. -/
theorem relayPingFold_actions (opn : Relay.Sock → Bool) (now : Nat) :
    ∀ (l : List (Relay.Sock × Relay.Conn))
      (acc : List (Relay.Sock × Relay.Conn) × List Relay.Action),
      ∀ a ∈ (l.foldl
        (fun acc p =>
          if now - p.2.lastPong > 60000 then (acc.1, acc.2 ++ [Relay.Action.terminate p.1])
          else if opn p.1 then (acc.1 ++ [p], acc.2 ++ [Relay.Action.ping p.1])
          else (acc.1 ++ [p], acc.2)) acc).2,
        a ∈ acc.2 ∨ (∃ x, a = Relay.Action.terminate x) ∨ (∃ x, a = Relay.Action.ping x) := by
  intro l
  induction l with
  | nil =>
    intro acc a ha
    exact Or.inl ha
  | cons q t ih =>
    intro acc a ha
    rw [List.foldl_cons] at ha
    by_cases h1 : now - q.2.lastPong > 60000
    · rw [if_pos h1] at ha
      rcases ih _ a ha with h | h
      · rcases List.mem_append.1 h with h | h
        · exact Or.inl h
        · rw [List.mem_singleton] at h
          exact Or.inr (Or.inl ⟨q.1, h⟩)
      · exact Or.inr h
    · rw [if_neg h1] at ha
      by_cases h2 : opn q.1 = true
      · rw [if_pos h2] at ha
        rcases ih _ a ha with h | h
        · rcases List.mem_append.1 h with h | h
          · exact Or.inl h
          · rw [List.mem_singleton] at h
            exact Or.inr (Or.inr ⟨q.1, h⟩)
        · exact Or.inr h
      · rw [if_neg h2] at ha
        rcases ih _ a ha with h | h
        · exact Or.inl h
        · exact Or.inr h

/-- C5 counterexample: an agent whose lastPong is 70 s old is terminated at
the tick, but the tick emits only the terminate and a ping — no message of
any kind reaches the sole connected client — and the subsequent close-event
removeConnection finds the agent slot already cleared, changes nothing and
broadcasts nothing; the claimed status{disconnected, agent_disconnected}
delivery never happens. -/
theorem c5_counterexample :
    Relay.pingAll (fun _ => true) 70000
        ⟨some ⟨0, .agent, true, 0⟩, [(1, ⟨1, .client, true, 65000⟩)]⟩
      = (⟨none, [(1, ⟨1, .client, true, 65000⟩)]⟩, [.terminate 0, .ping 1]) ∧
    Relay.removeConnection (fun _ => true) (fun _ => true)
        ⟨none, [(1, ⟨1, .client, true, 65000⟩)]⟩ 0
      = (⟨none, [(1, ⟨1, .client, true, 65000⟩)]⟩, []) ∧
    ([Relay.Action.terminate 0, .ping 1] ++ ([] : List Relay.Action)).all
        (fun a => match a with
          | .send _ _ => false
          | .sendFail _ _ => false
          | _ => true) = true := by
  refine ⟨by decide, by decide, by decide⟩

/-- C5 (amended): when the Agent's lastPong is more than 60 s old at a
heartbeat tick, pingAll terminates the agent socket and clears the agent
slot directly; the tick emits no message envelope to anyone, and the
subsequent close-event removeConnection (the agent socket not being in the
client map) finds no agent bound, leaves the state unchanged and broadcasts
nothing — so no Client is sent status{disconnected, agent_disconnected} on
this path. -/
theorem c5_timeout_silent (opn sendOk : Relay.Sock → Bool) (now : Nat)
    (st : Relay.CMState) (c : Relay.Conn)
    (hag : st.agent = some c)
    (hstale : 60000 < now - c.lastPong)
    (hnc : PC.lookupAssoc st.clients c.ws = none) :
    (Relay.pingAll opn now st).1.agent = none ∧
    Relay.Action.terminate c.ws ∈ (Relay.pingAll opn now st).2 ∧
    (∀ a ∈ (Relay.pingAll opn now st).2, ∀ dst : Relay.Sock, ∀ mg : Relay.Msg,
       ¬ a = Relay.Action.send dst mg ∧ ¬ a = Relay.Action.sendFail dst mg) ∧
    Relay.removeConnection opn sendOk (Relay.pingAll opn now st).1 c.ws
      = ((Relay.pingAll opn now st).1, []) := by
  have hgt : now - c.lastPong > 60000 := hstale
  have hagent : (Relay.pingAll opn now st).1.agent = none := by
    simp [Relay.pingAll, hag, hgt]
  refine ⟨hagent, ?_, ?_, ?_⟩
  · simp [Relay.pingAll, hag, hgt]
  · intro a ha dst mg
    simp only [Relay.pingAll, hag] at ha
    rw [if_pos hgt] at ha
    dsimp only at ha
    rw [List.mem_append] at ha
    rcases ha with ha | ha
    · rw [List.mem_singleton] at ha
      subst ha
      exact ⟨by simp, by simp⟩
    · rcases relayPingFold_actions opn now st.clients ([], []) a ha with h | h | h
      · simp at h
      · obtain ⟨x, hx⟩ := h
        subst hx
        exact ⟨by simp, by simp⟩
      · obtain ⟨x, hx⟩ := h
        subst hx
        exact ⟨by simp, by simp⟩
  · have hkeys : PC.lookupAssoc (Relay.pingAll opn now st).1.clients c.ws = none := by
      rw [PC.lookupAssoc_eq_none_iff]
      intro p hp
      simp only [Relay.pingAll, hag, hgt] at hp
      rcases relayPingFold_entries opn now st.clients ([], []) p hp with h | h
      · simp at h
      · exact (PC.lookupAssoc_eq_none_iff st.clients c.ws).1 hnc p h
    rw [Relay.removeConnection]
    rw [hagent, hkeys]
    simp

/-- C5 witness: the amended theorem applied at the concrete stale-agent
state with one fresh client. -/
theorem c5_timeout_silent_witness :
    ((Relay.CMState.mk (some ⟨0, .agent, true, 0⟩) [(1, ⟨1, .client, true, 65000⟩)]).agent
        = some ⟨0, .agent, true, 0⟩) ∧
    (60000 < 70000 - (Relay.Conn.mk 0 .agent true 0).lastPong) ∧
    (PC.lookupAssoc [(1, (⟨1, .client, true, 65000⟩ : Relay.Conn))] 0 = none) ∧
    ((Relay.pingAll (fun _ => true) 70000
        ⟨some ⟨0, .agent, true, 0⟩, [(1, ⟨1, .client, true, 65000⟩)]⟩).1.agent = none ∧
     Relay.Action.terminate 0 ∈ (Relay.pingAll (fun _ => true) 70000
        ⟨some ⟨0, .agent, true, 0⟩, [(1, ⟨1, .client, true, 65000⟩)]⟩).2 ∧
     (∀ a ∈ (Relay.pingAll (fun _ => true) 70000
          ⟨some ⟨0, .agent, true, 0⟩, [(1, ⟨1, .client, true, 65000⟩)]⟩).2,
        ∀ dst : Relay.Sock, ∀ mg : Relay.Msg,
          ¬ a = Relay.Action.send dst mg ∧ ¬ a = Relay.Action.sendFail dst mg) ∧
     Relay.removeConnection (fun _ => true) (fun _ => true)
         (Relay.pingAll (fun _ => true) 70000
            ⟨some ⟨0, .agent, true, 0⟩, [(1, ⟨1, .client, true, 65000⟩)]⟩).1 0
       = ((Relay.pingAll (fun _ => true) 70000
            ⟨some ⟨0, .agent, true, 0⟩, [(1, ⟨1, .client, true, 65000⟩)]⟩).1, [])) :=
  ⟨rfl, by decide, by decide,
   c5_timeout_silent (fun _ => true) (fun _ => true) 70000
     ⟨some ⟨0, .agent, true, 0⟩, [(1, ⟨1, .client, true, 65000⟩)]⟩
     ⟨0, .agent, true, 0⟩ rfl (by decide) (by decide)⟩

end ClaimC5

section ClaimC8

/-- C8 counterexample: an output frame from the authenticated Agent with two
open clients, the send to client 1 throwing: the broadcast logs the failure
(`sendFail`) and delivers to client 2, but the resulting connection state is
identical to the input state — client 1 is still in the client set,
contradicting the claim that a failing Client is dropped. -/
theorem c8_counterexample :
    Relay.handleMessage "T" (fun _ => true) (fun x => !(x == 1)) 0 ⟨true, some .agent⟩
        ⟨some ⟨0, .agent, true, 0⟩, [(1, ⟨1, .client, true, 0⟩), (2, ⟨2, .client, true, 0⟩)]⟩
        (.output "x") 99
      = (⟨true, some .agent⟩,
         ⟨some ⟨0, .agent, true, 0⟩, [(1, ⟨1, .client, true, 0⟩), (2, ⟨2, .client, true, 0⟩)]⟩,
         [.sendFail 1 (.fwd (.output "x")), .send 2 (.fwd (.output "x"))]) ∧
    (PC.lookupAssoc
        (Relay.handleMessage "T" (fun _ => true) (fun x => !(x == 1)) 0 ⟨true, some .agent⟩
          ⟨some ⟨0, .agent, true, 0⟩, [(1, ⟨1, .client, true, 0⟩), (2, ⟨2, .client, true, 0⟩)]⟩
          (.output "x") 99).2.1.clients 1).isSome = true := by
  refine ⟨by decide, by decide⟩

/-- C8 (amended): every output/status/error frame from the authenticated
Agent is broadcast — a send is attempted to every Client whose socket is
open (delivered when the send succeeds, logged as a failure when it throws)
— and the connection state is left completely unchanged: a Client whose send
failed is NOT dropped from the client set, and neither the other Clients nor
the Agent slot are affected. -/
theorem c8_broadcast_keeps_clients (tok : String) (opn sendOk : Relay.Sock → Bool)
    (s : Relay.Sock) (ls : Relay.SockLocal) (st : Relay.CMState) (tag : String) (now : Nat)
    (hauth : ls.authenticated = true) (hrole : ls.role = some .agent) :
    (Relay.handleMessage tok opn sendOk s ls st (.output tag) now
       = (ls, st, Relay.broadcastToClients opn sendOk st (.fwd (.output tag)))) ∧
    (Relay.handleMessage tok opn sendOk s ls st (.statusFrame tag) now
       = (ls, st, Relay.broadcastToClients opn sendOk st (.fwd (.statusFrame tag)))) ∧
    (Relay.handleMessage tok opn sendOk s ls st (.errorFrame tag) now
       = (ls, st, Relay.broadcastToClients opn sendOk st (.fwd (.errorFrame tag)))) ∧
    (∀ m : Relay.Msg, ∀ p ∈ st.clients, opn p.1 = true →
       (sendOk p.1 = true →
          Relay.Action.send p.1 m ∈ Relay.broadcastToClients opn sendOk st m) ∧
       (sendOk p.1 = false →
          Relay.Action.sendFail p.1 m ∈ Relay.broadcastToClients opn sendOk st m)) := by
  refine ⟨?_, ?_, ?_, ?_⟩
  · simp [Relay.handleMessage, hauth, Relay.routeAuthed, hrole]
  · simp [Relay.handleMessage, hauth, Relay.routeAuthed, hrole]
  · simp [Relay.handleMessage, hauth, Relay.routeAuthed, hrole]
  · intro m p hp hopn
    constructor
    · intro hok
      rw [Relay.broadcastToClients, List.mem_filterMap]
      exact ⟨p, hp, by simp [hopn, hok]⟩
    · intro hfail
      rw [Relay.broadcastToClients, List.mem_filterMap]
      exact ⟨p, hp, by simp [hopn, hfail]⟩

/-- C8 witness: the amended theorem applied at the two-client state where the
send to client 1 fails. -/
theorem c8_broadcast_keeps_clients_witness :
    ((Relay.SockLocal.mk true (some .agent)).authenticated = true) ∧
    ((Relay.SockLocal.mk true (some .agent)).role = some .agent) ∧
    Relay.handleMessage "T" (fun _ => true) (fun x => !(x == 1)) 0 ⟨true, some .agent⟩
        ⟨some ⟨0, .agent, true, 0⟩, [(1, ⟨1, .client, true, 0⟩), (2, ⟨2, .client, true, 0⟩)]⟩
        (.output "x") 99
      = (⟨true, some .agent⟩,
         ⟨some ⟨0, .agent, true, 0⟩, [(1, ⟨1, .client, true, 0⟩), (2, ⟨2, .client, true, 0⟩)]⟩,
         Relay.broadcastToClients (fun _ => true) (fun x => !(x == 1))
           ⟨some ⟨0, .agent, true, 0⟩, [(1, ⟨1, .client, true, 0⟩), (2, ⟨2, .client, true, 0⟩)]⟩
           (.fwd (.output "x"))) :=
  ⟨rfl, rfl,
   (c8_broadcast_keeps_clients "T" (fun _ => true) (fun x => !(x == 1)) 0
      ⟨true, some .agent⟩
      ⟨some ⟨0, .agent, true, 0⟩, [(1, ⟨1, .client, true, 0⟩), (2, ⟨2, .client, true, 0⟩)]⟩
      "x" 99 rfl rfl).1⟩

end ClaimC8

section ClaimC10

/-- C10: the Relay handles an auth frame regardless of the sender's prior
authentication state: a socket that is already an authenticated client and
sends a valid auth with role agent while no open agent socket is bound gets
the agent slot bound to it, while its entry in the client map is left in
place — one socket then occupies both the agent slot and a client slot —
and its per-connection role variable is switched to agent. -/
theorem c10_client_becomes_agent (tok : String) (opn sendOk : Relay.Sock → Bool)
    (s : Relay.Sock) (ls : Relay.SockLocal) (st : Relay.CMState) (now : Nat)
    (hauth : ls.authenticated = true) (hrole : ls.role = some .client)
    (hna : Relay.hasAgent opn st = false)
    (hmem : (PC.lookupAssoc st.clients s).isSome = true) :
    (Relay.handleMessage tok opn sendOk s ls st (.auth tok (some .agent)) now).2.1.agent
      = some ⟨s, .agent, true, now⟩ ∧
    (Relay.handleMessage tok opn sendOk s ls st (.auth tok (some .agent)) now).2.1.clients
      = st.clients ∧
    (PC.lookupAssoc
        (Relay.handleMessage tok opn sendOk s ls st (.auth tok (some .agent)) now).2.1.clients
        s).isSome = true ∧
    (Relay.handleMessage tok opn sendOk s ls st (.auth tok (some .agent)) now).1
      = ⟨true, some .agent⟩ := by
  have h1 : (Relay.handleMessage tok opn sendOk s ls st (.auth tok (some .agent)) now).2.1
      = { st with agent := some ⟨s, .agent, true, now⟩ } := by
    simp [Relay.handleMessage, Relay.registerAgent, hna]
  refine ⟨?_, ?_, ?_, ?_⟩
  · rw [h1]
  · rw [h1]
  · rw [h1]
    exact hmem
  · simp [Relay.handleMessage, Relay.registerAgent, hna]

/-- C10 witness: the theorem applied at a state where socket 5 is already an
authenticated client and no agent is bound. -/
theorem c10_client_becomes_agent_witness :
    ((Relay.SockLocal.mk true (some .client)).authenticated = true) ∧
    ((Relay.SockLocal.mk true (some .client)).role = some .client) ∧
    (Relay.hasAgent (fun _ => true) ⟨none, [(5, ⟨5, .client, true, 0⟩)]⟩ = false) ∧
    ((PC.lookupAssoc [(5, (⟨5, .client, true, 0⟩ : Relay.Conn))] 5).isSome = true) ∧
    (Relay.handleMessage "T" (fun _ => true) (fun _ => true) 5 ⟨true, some .client⟩
        ⟨none, [(5, ⟨5, .client, true, 0⟩)]⟩ (.auth "T" (some .agent)) 99).2.1.agent
      = some ⟨5, .agent, true, 99⟩ :=
  ⟨rfl, rfl, by decide, by decide,
   (c10_client_becomes_agent "T" (fun _ => true) (fun _ => true) 5 ⟨true, some .client⟩
      ⟨none, [(5, ⟨5, .client, true, 0⟩)]⟩ 99 rfl rfl (by decide) (by decide)).1⟩

end ClaimC10
